import Mathlib

/-!
Verification of the lightyear-jitter example program.

The development shallowly embeds the per-tick movement system
`apply_actions` of `src/main.rs` (together with the entity setup of
`set_up` and the component registration performed in `main`), and a model
of the replication receiver and component registry described by the
specification (that logic lives in the lightyear dependency, not in this
repository's sources, so it is modelled from the spec's words).

All `f32` arithmetic of the source is embedded as real-number arithmetic:
`glam::Vec3` and `glam::Quat` become records of reals, and glam's
`normalize_or_zero`, `mul_vec3`, `mul_quat`, `from_rotation_y` and
`from_rotation_x` are transcribed literally from glam's formulas.
-/

namespace LightyearJitter

/-! Replication receiver model (spec sections 4.4, 5 and 7). -/

/-- Modelled from the spec: the receive-side state of one entity/component
stream — the tick of the last applied update and the last committed value.
The receiver logic itself lives in the lightyear dependency, outside this
repository's sources. -/
structure ReceiverState (α : Type) where
  lastApplied : Option Nat
  value : Option α
deriving DecidableEq

/-- Modelled from the spec: an update is stale when its tick is at or
behind the last-applied tick for that entity/component. -/
def staleCheck (lastApplied : Option Nat) (tick : Nat) : Bool :=
  match lastApplied with
  | none => false
  | some l => decide (tick ≤ l)

/-- Modelled from the spec: the receiver drops stale updates
(tick at or behind the last-applied tick) rather than misapplying them;
otherwise it commits the value and records the tick. -/
def applyUpdate {α : Type} (s : ReceiverState α) (tick : Nat) (v : α) : ReceiverState α :=
  if staleCheck s.lastApplied tick then s else ⟨some tick, some v⟩

/-- Modelled from the spec: feeding a list of `(tick, value)` updates to the
receiver, collecting the ticks of the updates that are committed (not
dropped as stale). -/
def commits {α : Type} (s : ReceiverState α) : List (Nat × α) → List Nat
  | [] => []
  | (t, v) :: rest =>
      if staleCheck s.lastApplied t then commits s rest
      else t :: commits (applyUpdate s t v) rest

/-! Component registry model (spec section 4.2) and the registrations
performed by `main` in `src/main.rs`. -/

/-- The two component types this program registers. -/
inductive ComponentTypeId where
  | playerComponent
  | transformComponent
deriving DecidableEq, BEq

/-- lightyear `ChannelDirection`. -/
inductive ChannelDirection where
  | clientToServer
  | serverToClient
  | bidirectional
deriving DecidableEq

/-- Spec sync mode: `None`, `Interpolated` or `Predicted`. -/
inductive SyncMode where
  | noSync
  | interpolated
  | predicted
deriving DecidableEq

/-- One component registration: type, direction, sync mode, and whether an
interpolation function and a correction function were supplied. -/
structure ComponentRegistration where
  ctype : ComponentTypeId
  direction : ChannelDirection
  mode : SyncMode
  hasInterpolationFn : Bool
  hasCorrectionFn : Bool
deriving DecidableEq

/-- Modelled from the spec: `ConfigurationError` is raised on an invalid
component registration — a missing required function or a duplicate
registration. -/
inductive ConfigurationError where
  | missingFunction (t : ComponentTypeId)
  | duplicateRegistration (t : ComponentTypeId)
deriving DecidableEq

/-- Modelled from the spec: a `Predicted` or `Interpolated` registration
requires the corresponding interpolation/correction functions. -/
def requiredFnsOk (r : ComponentRegistration) : Bool :=
  match r.mode with
  | .noSync => true
  | .interpolated => r.hasInterpolationFn
  | .predicted => r.hasInterpolationFn && r.hasCorrectionFn

/-- Modelled from the spec: registering one component against the already
accepted registrations; fails with `ConfigurationError` on a duplicate type
or a missing required function. -/
def registerOne (acc : List ComponentRegistration) (r : ComponentRegistration) :
    Except ConfigurationError (List ComponentRegistration) :=
  if acc.any (fun s => s.ctype == r.ctype) then
    .error (.duplicateRegistration r.ctype)
  else if requiredFnsOk r then
    .ok (acc ++ [r])
  else
    .error (.missingFunction r.ctype)

/-- Modelled from the spec: performing a sequence of registrations,
stopping at the first `ConfigurationError`. -/
def registerAll (regs : List ComponentRegistration) :
    Except ConfigurationError (List ComponentRegistration) :=
  regs.foldlM registerOne []

/-- The registrations performed by `main` in `src/main.rs`: `Player` is
registered once, client→server, with no sync mode and no functions;
`Transform` is registered once, server→client, with full prediction and
with both an interpolation function and a correction function
(`TransformLinearInterpolation::lerp` for each). -/
def programRegistrations : List ComponentRegistration :=
  [⟨.playerComponent, .clientToServer, .noSync, false, false⟩,
   ⟨.transformComponent, .serverToClient, .predicted, true, true⟩]

/-! Geometry embedding: glam `Vec3` and `Quat` over the reals. -/

noncomputable section
open Classical

/-- Embedding of glam `Vec3` (three `f32` components embedded as reals). -/
@[ext]
structure Vec3 where
  x : ℝ
  y : ℝ
  z : ℝ

/-- glam `Vec3::ZERO`. -/
def Vec3.zero : Vec3 := ⟨0, 0, 0⟩

/-- Componentwise vector addition. -/
def Vec3.add (a b : Vec3) : Vec3 := ⟨a.x + b.x, a.y + b.y, a.z + b.z⟩

/-- Componentwise vector subtraction. -/
def Vec3.sub (a b : Vec3) : Vec3 := ⟨a.x - b.x, a.y - b.y, a.z - b.z⟩

/-- Scalar multiplication of a vector. -/
def Vec3.smul (c : ℝ) (v : Vec3) : Vec3 := ⟨c * v.x, c * v.y, c * v.z⟩

/-- glam `Vec3::dot`. -/
def Vec3.dot (a b : Vec3) : ℝ := a.x * b.x + a.y * b.y + a.z * b.z

/-- glam `Vec3::cross`. -/
def Vec3.cross (a b : Vec3) : Vec3 :=
  ⟨a.y * b.z - a.z * b.y, a.z * b.x - a.x * b.z, a.x * b.y - a.y * b.x⟩

/-- glam `Vec3::length_squared`. -/
def Vec3.normSq (v : Vec3) : ℝ := v.x * v.x + v.y * v.y + v.z * v.z

/-- glam `Vec3::length`. -/
def Vec3.length (v : Vec3) : ℝ := Real.sqrt v.normSq

/-- glam `Vec3::normalize_or_zero`: the vector scaled by the reciprocal of
its length when that reciprocal is finite and positive (over the reals:
when the vector is nonzero), and the zero vector otherwise. -/
def Vec3.normalizeOrZero (v : Vec3) : Vec3 :=
  if v.normSq = 0 then Vec3.zero else Vec3.smul (1 / v.length) v

/-- Embedding of glam `Quat` (x, y, z imaginary parts and w real part). -/
@[ext]
structure Quat where
  x : ℝ
  y : ℝ
  z : ℝ
  w : ℝ

/-- glam `Quat::IDENTITY`. -/
def Quat.IDENTITY : Quat := ⟨0, 0, 0, 1⟩

/-- Squared norm of a quaternion. -/
def Quat.normSq (q : Quat) : ℝ := q.x * q.x + q.y * q.y + q.z * q.z + q.w * q.w

/-- glam `Quat::mul_vec3` (the `Quat * Vec3` rotation applied by
`apply_actions`), transcribed from glam:
`rhs * (w*w - b.dot(b)) + b * (rhs.dot(b) * 2) + b.cross(rhs) * (w * 2)`
where `b` is the imaginary part of the quaternion. -/
def Quat.mulVec3 (q : Quat) (v : Vec3) : Vec3 :=
  let b : Vec3 := ⟨q.x, q.y, q.z⟩
  let b2 : ℝ := b.dot b
  (Vec3.smul (q.w * q.w - b2) v).add
    ((Vec3.smul (v.dot b * 2) b).add (Vec3.smul (q.w * 2) (b.cross v)))

/-- glam `Quat::mul_quat` (the Hamilton product, used by the `*=` on
`transform.rotation`). -/
def Quat.mulQuat (a b : Quat) : Quat :=
  ⟨a.w * b.x + a.x * b.w + a.y * b.z - a.z * b.y,
   a.w * b.y - a.x * b.z + a.y * b.w + a.z * b.x,
   a.w * b.z + a.x * b.y - a.y * b.x + a.z * b.w,
   a.w * b.w - a.x * b.x - a.y * b.y - a.z * b.z⟩

/-- glam `Quat::from_rotation_y`: a rotation of `angle` radians about the
Y axis. -/
def Quat.fromRotationY (angle : ℝ) : Quat :=
  ⟨0, Real.sin (angle * (1 / 2)), 0, Real.cos (angle * (1 / 2))⟩

/-- glam `Quat::from_rotation_x`: a rotation of `angle` radians about the
X axis (used for the ground circle in `set_up`). -/
def Quat.fromRotationX (angle : ℝ) : Quat :=
  ⟨Real.sin (angle * (1 / 2)), 0, 0, Real.cos (angle * (1 / 2))⟩

/-- Rust `f32::to_radians`. -/
def toRadians (degrees : ℝ) : ℝ := degrees * (Real.pi / 180)

/-- Bevy `Transform`: translation, rotation and scale. -/
@[ext]
structure Transform where
  translation : Vec3
  rotation : Quat
  scale : Vec3

/-- `Transform::default()` / `TransformBundle::default()`: zero
translation, identity rotation, unit scale — the transform the player
entity is spawned with in `set_up`. -/
def Transform.default : Transform := ⟨Vec3.zero, Quat.IDENTITY, ⟨1, 1, 1⟩⟩

/-! The input model and the `apply_actions` system of `src/main.rs`. -/

/-- The slice of `ActionState<PlayerActions>` that `apply_actions` reads:
the pressed state of the four direction actions and the `Look` mouse-motion
axis pair (`axis_pair` returns an `Option`). -/
structure PlayerActionState where
  up : Bool
  down : Bool
  left : Bool
  right : Bool
  look : Option (ℝ × ℝ)

/-- `MOVE_SPEED` constant of `apply_actions`. -/
def MOVE_SPEED : ℝ := 15

/-- `SENSITIVE` constant of `apply_actions`. -/
def SENSITIVE : ℝ := 2

/-- The direction vector accumulated by `apply_actions` from the pressed
direction actions: starts at `Vec3::ZERO`; `Up` subtracts 1 from z, `Down`
adds 1 to z, `Left` subtracts 1 from x, `Right` adds 1 to x. -/
def directionOf (action : PlayerActionState) : Vec3 :=
  let d := Vec3.zero
  let d := if action.up then { d with z := d.z - 1 } else d
  let d := if action.down then { d with z := d.z + 1 } else d
  let d := if action.left then { d with x := d.x - 1 } else d
  let d := if action.right then { d with x := d.x + 1 } else d
  d

/-- The per-tick translation delta of `apply_actions`:
`(transform.rotation * direction.normalize_or_zero()).normalize_or_zero()
* MOVE_SPEED * time.delta_seconds()`. -/
def moveDelta (transform : Transform) (action : PlayerActionState)
    (deltaSeconds : ℝ) : Vec3 :=
  Vec3.smul (MOVE_SPEED * deltaSeconds)
    ((transform.rotation.mulVec3 (directionOf action).normalizeOrZero).normalizeOrZero)

/-- The `apply_actions` system of `src/main.rs`, acting on one entity's
`Transform` for one `FixedUpdate` step: it adds the movement delta to the
translation, then, when the `Look` axis pair is present and nonzero,
multiplies the rotation on the right by a Y-axis rotation of
`(-event.x) * SENSITIVE * delta_seconds` degrees (the pitch line in the
source is commented out). -/
def applyActions (transform : Transform) (action : PlayerActionState)
    (deltaSeconds : ℝ) : Transform :=
  let moved : Transform :=
    { transform with
        translation := transform.translation.add (moveDelta transform action deltaSeconds) }
  match action.look with
  | none => moved
  | some event =>
      if event ≠ ((0 : ℝ), (0 : ℝ)) then
        let yaw := (-event.1) * SENSITIVE * deltaSeconds
        { moved with rotation := moved.rotation.mulQuat (Quat.fromRotationY (toRadians yaw)) }
      else
        moved

/-- Iterating `apply_actions` over a list of per-tick inputs at a fixed
tick duration (the fixed-update schedule run for `n` ticks). -/
def run (transform : Transform) (inputs : List PlayerActionState)
    (deltaSeconds : ℝ) : Transform :=
  inputs.foldl (fun t a => applyActions t a deltaSeconds) transform

/-- The input state of the C1 scenario: only `Up` pressed, no look input. -/
def upOnly : PlayerActionState := ⟨true, false, false, false, none⟩

/-! The entities spawned by `set_up` in `src/main.rs`. -/

/-- lightyear `ClientId`: a netcode, Steam or local client identifier. -/
inductive ClientId where
  | Netcode (id : Nat)
  | Steam (id : Nat)
  | Local (id : Nat)
deriving DecidableEq

/-- The `Player` component of `src/main.rs`: a `ClientId` wrapper. -/
structure Player where
  clientId : ClientId
deriving DecidableEq

/-- One spawned entity, restricted to the components the verified claims
mention: an optional `Player` component and the spawn `Transform`. -/
structure EntityRecord where
  player : Option Player
  transform : Transform

/-- Transform of the ground circle spawned by `set_up`:
rotation `Quat::from_rotation_x(-FRAC_PI_2)`. -/
def circleTransform : Transform :=
  ⟨Vec3.zero, Quat.fromRotationX (-(Real.pi / 2)), ⟨1, 1, 1⟩⟩

/-- Transform of the cuboid spawned by `set_up`: translation (0, 10, 0). -/
def cuboidTransform : Transform := ⟨⟨0, 10, 0⟩, Quat.IDENTITY, ⟨1, 1, 1⟩⟩

/-- Transform of the point light spawned by `set_up`: `from_xyz(4, 8, 4)`. -/
def lightTransform : Transform := ⟨⟨4, 8, 4⟩, Quat.IDENTITY, ⟨1, 1, 1⟩⟩

/-- Transform of the camera child spawned by `set_up`:
translation (0, 10, 0). -/
def cameraTransform : Transform := ⟨⟨0, 10, 0⟩, Quat.IDENTITY, ⟨1, 1, 1⟩⟩

/-- The five entities spawned by `set_up`, in spawn order: the ground
circle, the cuboid, the point light, the player (the only entity with a
`Player` component, bound to `ClientId::Local(0)`, with
`TransformBundle::default()`), and the player's camera child. -/
def setUpEntities : List EntityRecord :=
  [⟨none, circleTransform⟩,
   ⟨none, cuboidTransform⟩,
   ⟨none, lightTransform⟩,
   ⟨some ⟨ClientId.Local 0⟩, Transform.default⟩,
   ⟨none, cameraTransform⟩]

/-- One `FixedUpdate` step of the `apply_actions` system on one entity:
the system's query filters on `With<Player>`, and it mutates only the
`Transform` component — the `Player` component is never written. -/
def stepEntity (e : EntityRecord) (action : PlayerActionState)
    (deltaSeconds : ℝ) : EntityRecord :=
  if e.player.isSome then
    { e with transform := applyActions e.transform action deltaSeconds }
  else
    e

/-- A quaternion that is a pure rotation about the Y axis: its x and z
imaginary components vanish. -/
def PureY (q : Quat) : Prop := q.x = 0 ∧ q.z = 0

end

/-! Helper lemmas about the geometry embedding. -/

theorem Vec3.normSq_nonneg (v : Vec3) : 0 ≤ v.normSq := by
  unfold Vec3.normSq
  nlinarith [mul_self_nonneg v.x, mul_self_nonneg v.y, mul_self_nonneg v.z]

theorem Vec3.normSq_zero : Vec3.zero.normSq = 0 := by
  unfold Vec3.normSq Vec3.zero
  norm_num

theorem Vec3.normSq_eq_zero_iff {v : Vec3} : v.normSq = 0 ↔ v = Vec3.zero := by
  unfold Vec3.normSq
  constructor
  · intro h
    have hx : v.x * v.x = 0 := by
      nlinarith [mul_self_nonneg v.x, mul_self_nonneg v.y, mul_self_nonneg v.z]
    have hy : v.y * v.y = 0 := by
      nlinarith [mul_self_nonneg v.x, mul_self_nonneg v.y, mul_self_nonneg v.z]
    have hz : v.z * v.z = 0 := by
      nlinarith [mul_self_nonneg v.x, mul_self_nonneg v.y, mul_self_nonneg v.z]
    ext
    · exact mul_self_eq_zero.mp hx
    · exact mul_self_eq_zero.mp hy
    · exact mul_self_eq_zero.mp hz
  · rintro rfl
    norm_num [Vec3.zero]

theorem Vec3.normSq_smul (c : ℝ) (v : Vec3) :
    (Vec3.smul c v).normSq = c ^ 2 * v.normSq := by
  unfold Vec3.normSq Vec3.smul
  ring

theorem Vec3.smul_zero_vec (c : ℝ) : Vec3.smul c Vec3.zero = Vec3.zero := by
  unfold Vec3.smul Vec3.zero
  norm_num

theorem Vec3.add_zero_vec (v : Vec3) : v.add Vec3.zero = v := by
  unfold Vec3.add Vec3.zero
  ext <;> norm_num

theorem Vec3.add_sub_cancel_vec (v w : Vec3) : (v.add w).sub v = w := by
  unfold Vec3.add Vec3.sub
  ext <;> dsimp <;> ring

theorem Vec3.normalizeOrZero_zero : Vec3.zero.normalizeOrZero = Vec3.zero := by
  unfold Vec3.normalizeOrZero
  rw [if_pos Vec3.normSq_zero]

theorem Vec3.normSq_normalizeOrZero {v : Vec3} (h : v.normSq ≠ 0) :
    v.normalizeOrZero.normSq = 1 := by
  unfold Vec3.normalizeOrZero
  rw [if_neg h, Vec3.normSq_smul]
  unfold Vec3.length
  rw [div_pow, one_pow, Real.sq_sqrt (Vec3.normSq_nonneg v)]
  exact one_div_mul_cancel h

theorem Vec3.normalizeOrZero_of_normSq_one {v : Vec3} (h : v.normSq = 1) :
    v.normalizeOrZero = v := by
  unfold Vec3.normalizeOrZero
  rw [if_neg (by rw [h]; exact one_ne_zero)]
  unfold Vec3.length
  rw [h, Real.sqrt_one]
  ext <;> simp [Vec3.smul]

theorem Quat.normSq_IDENTITY : Quat.IDENTITY.normSq = 1 := by
  unfold Quat.normSq Quat.IDENTITY
  norm_num

theorem Quat.normSq_mulVec3 (q : Quat) (v : Vec3) :
    (q.mulVec3 v).normSq = q.normSq ^ 2 * v.normSq := by
  unfold Quat.mulVec3 Quat.normSq Vec3.normSq Vec3.dot Vec3.cross Vec3.smul Vec3.add
  ring

theorem Quat.mulVec3_zero_vec (q : Quat) : q.mulVec3 Vec3.zero = Vec3.zero := by
  unfold Quat.mulVec3 Vec3.dot Vec3.cross Vec3.smul Vec3.add Vec3.zero
  ext <;> dsimp <;> ring

theorem Quat.mulVec3_IDENTITY (v : Vec3) : Quat.IDENTITY.mulVec3 v = v := by
  unfold Quat.mulVec3 Quat.IDENTITY Vec3.dot Vec3.cross Vec3.smul Vec3.add
  ext <;> dsimp <;> ring

/-! Helper lemmas about `apply_actions`. -/

theorem applyActions_translation (t : Transform) (a : PlayerActionState) (d : ℝ) :
    (applyActions t a d).translation = t.translation.add (moveDelta t a d) := by
  unfold applyActions
  cases hl : a.look with
  | none => rfl
  | some event =>
      dsimp only
      split <;> rfl

theorem directionOf_upOnly : directionOf upOnly = ⟨0, 0, -1⟩ := by
  unfold directionOf upOnly
  norm_num [Vec3.zero]

theorem directionOf_y_eq_zero (a : PlayerActionState) : (directionOf a).y = 0 := by
  unfold directionOf
  cases a.up <;> cases a.down <;> cases a.left <;> cases a.right <;> rfl

theorem Vec3.normalizeOrZero_y {v : Vec3} (h : v.y = 0) :
    v.normalizeOrZero.y = 0 := by
  unfold Vec3.normalizeOrZero
  split
  · rfl
  · simp [Vec3.smul, h]

theorem Quat.mulVec3_y_of_pureY {q : Quat} {v : Vec3} (hq : PureY q) (hv : v.y = 0) :
    (q.mulVec3 v).y = 0 := by
  obtain ⟨hx, hz⟩ := hq
  unfold Quat.mulVec3 Vec3.dot Vec3.cross Vec3.smul Vec3.add
  dsimp
  rw [hx, hz, hv]
  ring

theorem Quat.mulQuat_pureY {a b : Quat} (ha : PureY a) (hb : PureY b) :
    PureY (a.mulQuat b) := by
  obtain ⟨hax, haz⟩ := ha
  obtain ⟨hbx, hbz⟩ := hb
  unfold Quat.mulQuat PureY
  constructor <;> dsimp <;> rw [hax, haz, hbx, hbz] <;> ring

theorem Quat.fromRotationY_pureY (θ : ℝ) : PureY (Quat.fromRotationY θ) :=
  ⟨rfl, rfl⟩

theorem moveDelta_y_of_pureY {t : Transform} (a : PlayerActionState) (d : ℝ)
    (h : PureY t.rotation) : (moveDelta t a d).y = 0 := by
  have h1 : (directionOf a).normalizeOrZero.y = 0 :=
    Vec3.normalizeOrZero_y (directionOf_y_eq_zero a)
  have h2 : (t.rotation.mulVec3 (directionOf a).normalizeOrZero).y = 0 :=
    Quat.mulVec3_y_of_pureY h h1
  have h3 : (t.rotation.mulVec3 (directionOf a).normalizeOrZero).normalizeOrZero.y = 0 :=
    Vec3.normalizeOrZero_y h2
  unfold moveDelta
  simp only [Vec3.smul]
  rw [h3]
  ring

theorem applyActions_pureY_step (t : Transform) (a : PlayerActionState) (d : ℝ)
    (h : PureY t.rotation) :
    (applyActions t a d).translation.y = t.translation.y ∧
      PureY (applyActions t a d).rotation := by
  constructor
  · rw [applyActions_translation]
    unfold Vec3.add
    dsimp
    rw [moveDelta_y_of_pureY a d h]
    ring
  · unfold applyActions
    cases hl : a.look with
    | none => exact h
    | some event =>
        dsimp only
        split
        · exact Quat.mulQuat_pureY h (Quat.fromRotationY_pureY _)
        · exact h

theorem moveDelta_upOnly_identity (v s : Vec3) (d : ℝ) :
    moveDelta ⟨v, Quat.IDENTITY, s⟩ upOnly d = ⟨0, 0, -(MOVE_SPEED * d)⟩ := by
  unfold moveDelta
  rw [show (⟨v, Quat.IDENTITY, s⟩ : Transform).rotation = Quat.IDENTITY from rfl]
  rw [directionOf_upOnly]
  rw [show (Vec3.mk 0 0 (-1)).normalizeOrZero = ⟨0, 0, -1⟩ from
    Vec3.normalizeOrZero_of_normSq_one (by unfold Vec3.normSq; norm_num)]
  rw [Quat.mulVec3_IDENTITY]
  rw [show (Vec3.mk 0 0 (-1)).normalizeOrZero = ⟨0, 0, -1⟩ from
    Vec3.normalizeOrZero_of_normSq_one (by unfold Vec3.normSq; norm_num)]
  unfold Vec3.smul
  ext <;> dsimp <;> ring

theorem applyActions_upOnly_identity (v s : Vec3) (d : ℝ) :
    applyActions ⟨v, Quat.IDENTITY, s⟩ upOnly d
      = ⟨⟨v.x, v.y, v.z - MOVE_SPEED * d⟩, Quat.IDENTITY, s⟩ := by
  unfold applyActions
  rw [show upOnly.look = none from rfl]
  dsimp only
  rw [moveDelta_upOnly_identity]
  unfold Vec3.add
  ext <;> dsimp <;> ring

/-! Helper lemmas about the replication receiver model. -/

theorem commits_mem_gt {α : Type} :
    ∀ (us : List (Nat × α)) (l : Nat) (w : Option α) (t : Nat),
      t ∈ commits ⟨some l, w⟩ us → l < t := by
  intro us
  induction us with
  | nil =>
      intro l w t h
      simp [commits] at h
  | cons u rest ih =>
      intro l w t h
      obtain ⟨ut, uv⟩ := u
      rw [commits] at h
      by_cases hs : staleCheck (ReceiverState.mk (α := α) (some l) w).lastApplied ut = true
      · rw [if_pos hs] at h
        exact ih l w t h
      · rw [if_neg hs] at h
        have hlt : l < ut := by
          simp [staleCheck] at hs
          omega
        have happ : applyUpdate (⟨some l, w⟩ : ReceiverState α) ut uv = ⟨some ut, some uv⟩ := by
          unfold applyUpdate
          rw [if_neg hs]
        rw [happ] at h
        rcases List.mem_cons.mp h with h1 | h2
        · exact h1 ▸ hlt
        · exact lt_trans hlt (ih ut (some uv) t h2)

theorem commits_pairwise {α : Type} :
    ∀ (us : List (Nat × α)) (s : ReceiverState α),
      (commits s us).Pairwise (· < ·) := by
  intro us
  induction us with
  | nil =>
      intro s
      simp [commits]
  | cons u rest ih =>
      intro s
      obtain ⟨ut, uv⟩ := u
      rw [commits]
      by_cases hs : staleCheck s.lastApplied ut = true
      · rw [if_pos hs]
        exact ih s
      · rw [if_neg hs]
        have happ : applyUpdate s ut uv = ⟨some ut, some uv⟩ := by
          unfold applyUpdate
          rw [if_neg hs]
        refine List.Pairwise.cons ?_ ?_
        · intro b hb
          rw [happ] at hb
          exact commits_mem_gt rest ut (some uv) b hb
        · rw [happ]
          exact ih _

/-! Claim theorems. -/

/-- C1: starting from the spawn transform (origin translation, identity
rotation), applying the per-tick movement step `apply_actions` for 10
consecutive ticks with only the `Up` action pressed, at tick duration
1/60 s and speed 15 units/s, yields the position (0, 0, -5/2) — that is,
15 units/s times 10/60 s along -z — and replaying the same step function
over the same inputs produces exactly the same result. -/
theorem holding_up_ten_ticks_position :
    (run Transform.default (List.replicate 10 upOnly) (1 / 60)).translation
        = ⟨0, 0, -(5 / 2)⟩ ∧
    run Transform.default (List.replicate 10 upOnly) (1 / 60)
        = run Transform.default (List.replicate 10 upOnly) (1 / 60) := by
  constructor
  · rw [show Transform.default = ⟨Vec3.zero, Quat.IDENTITY, ⟨1, 1, 1⟩⟩ from rfl]
    simp only [run, List.replicate, List.foldl, applyActions_upOnly_identity]
    rw [show Vec3.zero = (⟨0, 0, 0⟩ : Vec3) from rfl]
    dsimp
    ext
    all_goals norm_num [MOVE_SPEED]
  · rfl

/-- C2: the per-tick step function `apply_actions` is a pure function of
the previous transform, the input action state and the elapsed tick
duration: any two runs on equal arguments produce equal transforms (in
this embedding the step takes exactly these three arguments, so it can
depend on nothing else — no wall-clock time, no randomness). -/
theorem applyActions_deterministic (t₁ t₂ : Transform)
    (a₁ a₂ : PlayerActionState) (d₁ d₂ : ℝ)
    (ht : t₁ = t₂) (ha : a₁ = a₂) (hd : d₁ = d₂) :
    applyActions t₁ a₁ d₁ = applyActions t₂ a₂ d₂ := by
  subst ht
  subst ha
  subst hd
  rfl

theorem applyActions_deterministic_witness :
    applyActions Transform.default upOnly (1 / 60)
      = applyActions Transform.default upOnly (1 / 60) :=
  applyActions_deterministic Transform.default Transform.default upOnly upOnly
    (1 / 60) (1 / 60) rfl rfl rfl

/-- C3: updates are committed only in strictly increasing tick order
(an update whose tick is at or behind the last-applied tick is dropped,
never applied), and feeding updates for ticks [5, 3, 7, 6] in that arrival
order commits exactly tick 5 then tick 7. -/
theorem updates_commit_in_increasing_order :
    (∀ (s : ReceiverState Nat) (updates : List (Nat × Nat)),
        (commits s updates).Pairwise (· < ·)) ∧
    (∀ (s : ReceiverState Nat) (t : Nat) (v : Nat),
        staleCheck s.lastApplied t = true → applyUpdate s t v = s) ∧
    commits (⟨none, none⟩ : ReceiverState Nat) [(5, 50), (3, 30), (7, 70), (6, 60)]
        = [5, 7] := by
  refine ⟨fun s updates => commits_pairwise updates s, ?_, by decide⟩
  intro s t v h
  unfold applyUpdate
  rw [if_pos h]

theorem updates_commit_in_increasing_order_witness :
    applyUpdate (⟨some 5, some 50⟩ : ReceiverState Nat) 3 30
      = (⟨some 5, some 50⟩ : ReceiverState Nat) :=
  updates_commit_in_increasing_order.2.1 ⟨some 5, some 50⟩ 3 30 (by decide)

/-- C4: applying the same (tick, value) update twice leaves the receiver
state identical to applying it once — the duplicate arrives with a tick
equal to the last-applied tick, so it is dropped as a no-op. -/
theorem duplicate_update_idempotent {α : Type} (s : ReceiverState α)
    (t : Nat) (v : α) :
    applyUpdate (applyUpdate s t v) t v = applyUpdate s t v := by
  by_cases h : staleCheck s.lastApplied t = true
  · have h1 : applyUpdate s t v = s := by unfold applyUpdate; rw [if_pos h]
    rw [h1]
    exact h1
  · rw [show applyUpdate s t v = ⟨some t, some v⟩ from by unfold applyUpdate; rw [if_neg h]]
    unfold applyUpdate
    rw [if_pos (by simp [staleCheck])]

/-- C5: the look handling applies only yaw: whenever the `Look` axis pair
is present with a nonzero value (x, y), the step multiplies the rotation
by a Y-axis rotation of `(-x) * 2 * delta_seconds` degrees, and no pitch
rotation about the X axis is applied (the resulting rotation is exactly
the yaw product). -/
theorem look_applies_only_yaw (t : Transform) (a : PlayerActionState)
    (d x y : ℝ) (hl : a.look = some (x, y))
    (hne : (x, y) ≠ ((0 : ℝ), (0 : ℝ))) :
    (applyActions t a d).rotation
      = t.rotation.mulQuat (Quat.fromRotationY (toRadians ((-x) * 2 * d))) := by
  unfold applyActions
  rw [hl]
  dsimp only
  rw [if_pos hne]
  show t.rotation.mulQuat (Quat.fromRotationY (toRadians ((-x) * SENSITIVE * d))) = _
  rw [show SENSITIVE = 2 from rfl]

theorem look_applies_only_yaw_witness :
    (applyActions Transform.default ⟨false, false, false, false, some (1, 0)⟩ 1).rotation
      = Transform.default.rotation.mulQuat
          (Quat.fromRotationY (toRadians ((-(1 : ℝ)) * 2 * 1))) :=
  look_applies_only_yaw Transform.default
    ⟨false, false, false, false, some (1, 0)⟩ 1 1 0 rfl (by simp)

/-- C6: the component registrations performed by this program never raise
`ConfigurationError`: `Player` and `Transform` are each registered exactly
once, and the one registration with a `Predicted` mode (`Transform`)
supplies both an interpolation function and a correction function, so
neither failure condition (missing required function, duplicate
registration) occurs. -/
theorem registrations_never_error :
    registerAll programRegistrations = Except.ok programRegistrations := by
  rfl

/-- C7: exactly one `Player`-class entity is spawned by `set_up`, bound at
creation to `ClientId::Local(0)`, and the binding is immutable: the
per-tick system mutates only the `Transform` component and leaves the
`Player` component of every entity unchanged on every simulation step. -/
theorem player_binding_unique_and_immutable :
    (setUpEntities.filter (fun e => e.player.isSome)).length = 1 ∧
    (setUpEntities.filter (fun e => e.player.isSome)).map (fun e => e.player)
        = [some ⟨ClientId.Local 0⟩] ∧
    ∀ (e : EntityRecord) (a : PlayerActionState) (d : ℝ),
      (stepEntity e a d).player = e.player := by
  refine ⟨rfl, rfl, ?_⟩
  intro e a d
  unfold stepEntity
  split
  all_goals rfl

/-- C8: whenever the pressed direction actions do not cancel to the zero
vector, one `apply_actions` step displaces the translation by a vector of
length exactly `MOVE_SPEED * delta_seconds` (for a unit rotation
quaternion and nonnegative tick duration): the direction is normalized
before scaling, so the speed does not depend on how many direction keys
are pressed. -/
theorem nonzero_direction_moves_at_speed (t : Transform)
    (a : PlayerActionState) (d : ℝ) (hq : t.rotation.normSq = 1)
    (hd : 0 ≤ d) (hdir : directionOf a ≠ Vec3.zero) :
    ((applyActions t a d).translation.sub t.translation).length
      = MOVE_SPEED * d := by
  rw [applyActions_translation, Vec3.add_sub_cancel_vec]
  have h0 : (directionOf a).normSq ≠ 0 := fun h => hdir (Vec3.normSq_eq_zero_iff.mp h)
  have h1 : (directionOf a).normalizeOrZero.normSq = 1 :=
    Vec3.normSq_normalizeOrZero h0
  have h2 : (t.rotation.mulVec3 (directionOf a).normalizeOrZero).normSq = 1 := by
    rw [Quat.normSq_mulVec3, hq, h1]
    norm_num
  have h3 :
      (t.rotation.mulVec3 (directionOf a).normalizeOrZero).normalizeOrZero.normSq = 1 := by
    rw [Vec3.normalizeOrZero_of_normSq_one h2]
    exact h2
  unfold moveDelta Vec3.length
  rw [Vec3.normSq_smul, h3, mul_one,
    Real.sqrt_sq (mul_nonneg (by norm_num [MOVE_SPEED]) hd)]

theorem nonzero_direction_moves_at_speed_witness :
    ((applyActions Transform.default upOnly 1).translation.sub
        Transform.default.translation).length = MOVE_SPEED * 1 :=
  nonzero_direction_moves_at_speed Transform.default upOnly 1
    (by norm_num [Transform.default, Quat.IDENTITY, Quat.normSq])
    (by norm_num)
    (by rw [directionOf_upOnly]; simp [Vec3.zero])

/-- C9: when the net movement direction is zero — no direction action
pressed, or pressed directions cancelling exactly — `normalize_or_zero`
yields the zero vector instead of dividing by a zero length, the movement
delta is zero, and one `apply_actions` step leaves the translation exactly
unchanged (in this real-number embedding no NaN can arise; the
zero-length guard is what the theorem exercises). -/
theorem zero_direction_leaves_translation (t : Transform)
    (a : PlayerActionState) (d : ℝ) (hdir : directionOf a = Vec3.zero) :
    (applyActions t a d).translation = t.translation := by
  rw [applyActions_translation]
  unfold moveDelta
  rw [hdir, Vec3.normalizeOrZero_zero, Quat.mulVec3_zero_vec,
    Vec3.normalizeOrZero_zero, Vec3.smul_zero_vec, Vec3.add_zero_vec]

theorem zero_direction_leaves_translation_witness :
    (applyActions Transform.default ⟨true, true, false, false, none⟩ 1).translation
      = Transform.default.translation :=
  zero_direction_leaves_translation Transform.default
    ⟨true, true, false, false, none⟩ 1
    (by norm_num [directionOf, Vec3.zero])

/-- C10: if the transform's rotation is a pure rotation about the Y axis,
then every sequence of `apply_actions` steps preserves the y translation
component and keeps the rotation a pure Y-axis rotation: the movement
delta stays in the xz-plane and the look handling only composes further
Y-axis rotations. Since the player spawns with the identity rotation
(which is pure-Y), its translation.y stays at its initial value forever. -/
theorem pureY_invariant_run (t : Transform) (inputs : List PlayerActionState)
    (d : ℝ) (h : PureY t.rotation) :
    (run t inputs d).translation.y = t.translation.y ∧
      PureY (run t inputs d).rotation := by
  induction inputs generalizing t with
  | nil => exact ⟨rfl, h⟩
  | cons a rest ih =>
      have hstep := applyActions_pureY_step t a d h
      have htail := ih (applyActions t a d) hstep.2
      have hrun : run t (a :: rest) d = run (applyActions t a d) rest d := rfl
      rw [hrun]
      exact ⟨htail.1.trans hstep.1, htail.2⟩

theorem pureY_invariant_run_witness :
    (run Transform.default [upOnly] 1).translation.y
        = Transform.default.translation.y ∧
      PureY (run Transform.default [upOnly] 1).rotation :=
  pureY_invariant_run Transform.default [upOnly] 1 ⟨rfl, rfl⟩

end LightyearJitter
